import Mathlib

/-!
Verification of the MikroTik backup bot against its design document.

The development shallowly embeds the JavaScript sources:

* `src/src/index.js` — the orchestrator `sendBackup`, the error
  sanitizer `sanitizeError`, and the failure-escalation loop;
* `src/src/services/routerStore.js` — the device registry
  (`getRouters`, `addRouter`, `removeRouter`, `saveRouters`);
* `src/src/services/mikrotikService.js` — `safeName`, `execCommand`,
  `performBackup`'s name computation;
* `src/unnamed/part_003` — the run-history store (`getHistory`,
  `saveHistory`, `addBackupRecord`, `getStatistics`).

Strings are modelled as Lean `String` (a list of characters); the
JavaScript string primitives the code relies on (`trim`, `toLowerCase`,
`replace` with the two concrete regexes, truthiness of strings) are
embedded explicitly below, restricted to ASCII where the source's data
(device names, error texts) lives.  File-system effects are modelled as
explicit state passing; asynchronous queueing is outside the model (the
claims under study are about the sequential semantics of each operation).
-/

namespace MikrotikBot

/-! ## JavaScript string primitives -/

/-- ASCII whitespace, the fragment of the JavaScript `\s` / `trim`
whitespace class that the repository's data can contain:
tab, LF, VT, FF, CR, space. -/
def isJsSpace (c : Char) : Bool :=
  c == Char.ofNat 9 || c == Char.ofNat 10 || c == Char.ofNat 11 ||
  c == Char.ofNat 12 || c == Char.ofNat 13 || c == Char.ofNat 32

/-- ASCII lower-casing of one character (JavaScript `toLowerCase` on the
ASCII range). -/
def lowerChar (c : Char) : Char :=
  if 'A' ≤ c ∧ c ≤ 'Z' then Char.ofNat (c.toNat + 32) else c

/-- JavaScript `String.prototype.trim` on a character list: drop
whitespace from both ends. -/
def trimChars (cs : List Char) : List Char :=
  ((cs.dropWhile isJsSpace).reverse.dropWhile isJsSpace).reverse

/-- JavaScript `s.trim()`. -/
def jsTrim (s : String) : String := String.mk (trimChars s.data)

/-- JavaScript `s.toLowerCase()` (ASCII fragment). -/
def jsLower (s : String) : String := String.mk (s.data.map lowerChar)

/-- The normal form under which the registry compares device names:
`name.trim().toLowerCase()`. -/
def normName (s : String) : String := jsLower (jsTrim s)

/-! ## The error sanitizer (`src/src/index.js` lines 102–107)

`sanitizeError` applies the global, case-insensitive replace
`errorStr.replace(/password[=:]\s*['\x7b0,1\x7d]?[^'"]*['"]?/gi, 'password=***')`
(the regex literally is `password[=:]\s*['"]?[^'"]*['"]?`).  The embedding
is a direct deterministic scanner: every alternative-free piece of that
regex is a character class, so the JavaScript engine's leftmost greedy
match is reproduced exactly by maximal munch. -/

/-- A single or double quote, the `['"]` class of the regex. -/
def isQuote (c : Char) : Bool := c == Char.ofNat 39 || c == Char.ofNat 34

/-- The `[=:]` separator class of the regex. -/
def isSepChar (c : Char) : Bool := c == '=' || c == ':'

def isSepOpt : Option Char → Bool
  | some c => isSepChar c
  | none => false

/-- The literal `password` the regex starts with. -/
def pwdChars : List Char := ['p', 'a', 's', 's', 'w', 'o', 'r', 'd']

/-- The fixed replacement text `password=***`. -/
def pwdMask : List Char := String.data "password=***"

/-- Whether a match of the regex starts at the head of `cs`:
`password` case-insensitively, then `=` or `:`. -/
def canStart (cs : List Char) : Bool :=
  ((cs.take 8).map lowerChar == pwdChars) && isSepOpt (cs.get? 8)

/-- The number of characters `\s*` consumes greedily. -/
def wsLen (rest : List Char) : Nat := (rest.takeWhile isJsSpace).length

/-- What the first optional quote `['"]?` consumes: characters consumed
and remaining input. -/
def optQuote (l : List Char) : Nat × List Char :=
  match l with
  | c :: t => if isQuote c then (1, t) else (0, c :: t)
  | [] => (0, [])

/-- The number of characters `[^'"]*` consumes greedily. -/
def nonQuoteLen (l : List Char) : Nat :=
  (l.takeWhile (fun c => !(isQuote c))).length

/-- What the final optional quote `['"]?` consumes. -/
def tailQuote (l : List Char) : Nat :=
  match l with
  | c :: _ => if isQuote c then 1 else 0
  | [] => 0

/-- Length of the (unique, greedy) regex match starting at the head of
`cs`, when one starts there: `password[=:]` (9 characters), then `\s*`
greedily, then an optional quote, then `[^'"]*` greedily, then an
optional quote. -/
def pwdMatchLen (cs : List Char) : Option Nat :=
  if canStart cs then
    let rest := cs.drop 9
    let ws := wsLen rest
    let q1 := optQuote (rest.drop ws)
    let nq := nonQuoteLen q1.2
    some (9 + ws + q1.1 + nq + tailQuote (q1.2.drop nq))
  else none

/-- The global replace, fuelled so that it is structural (the fuel is
always at least the length of the remaining input, and each step consumes
at least one character). -/
def sanitizeFuel : Nat → List Char → List Char
  | 0, cs => cs
  | _ + 1, [] => []
  | fuel + 1, c :: rest =>
    match pwdMatchLen (c :: rest) with
    | some n => pwdMask ++ sanitizeFuel fuel ((c :: rest).drop n)
    | none => c :: sanitizeFuel fuel rest

/-- `replace(/password[=:]\s*['"]?[^'"]*['"]?/gi, 'password=***')` on a
character list. -/
def sanitizeChars (cs : List Char) : List Char := sanitizeFuel cs.length cs

/-- `sanitizeError` of `src/src/index.js` (the non-null branch: the
argument is already a string). -/
def sanitizeError (s : String) : String := String.mk (sanitizeChars s.data)

/-! ## `safeName` (`src/src/services/mikrotikService.js` lines 9–10)

`const safeName = (name = 'router') => name.replace(/[^a-zA-Z0-9-_]/g, '_') || 'router'`.
A missing argument is `none`; the `|| 'router'` fallback fires exactly
when the replaced string is empty (the only falsy string). -/

/-- Membership in the character class `[a-zA-Z0-9-_]`. -/
def isSafeChar (c : Char) : Bool :=
  if ('a' ≤ c ∧ c ≤ 'z') ∨ ('A' ≤ c ∧ c ≤ 'Z') ∨ ('0' ≤ c ∧ c ≤ '9') ∨
     c = '-' ∨ c = '_' then true else false

/-- `name.replace(/[^a-zA-Z0-9-_]/g, '_')`. -/
def safeReplace (s : String) : String :=
  String.mk (s.data.map (fun c => if isSafeChar c then c else '_'))

/-- `safeName`: `none` models a missing argument (JavaScript default
parameter `'router'`). -/
def safeName (arg : Option String) : String :=
  let name := arg.getD "router"
  let r := safeReplace name
  if r == "" then "router" else r

/-- The device-name part of `performBackup`'s filename computation
(`src/src/services/mikrotikService.js` line 85):
`safeName(router.name || router.host)` — the empty string models a
missing/falsy `router.name`. -/
def perfRouterName (name host : String) : String :=
  safeName (some (if name == "" then host else name))

/-! ## Device registry (`src/src/services/routerStore.js`) -/

structure Router where
  name : String
  host : String
  username : String
  password : String
  port : Option Nat
  deriving DecidableEq

/-- The duplicate test of `addRouter` (line 84):
`routers.some((r) => r.name && r.name.trim().toLowerCase() === trimmedName.toLowerCase())`. -/
def routerNameTaken (trimmedName : String) (rs : List Router) : Bool :=
  rs.any (fun x => x.name != "" && (normName x.name == jsLower trimmedName))

/-- `addRouter` (lines 60–95): field validation, trimmed-name validation,
case-insensitive duplicate check, then append and persist.  `.error` is a
thrown `Error`'s message; on error nothing is saved. -/
def addRouter (router : Router) (rs : List Router) : Except String (List Router) :=
  if router.name == "" || router.host == "" || router.username == "" ||
     router.password == "" then
    Except.error "Router harus memiliki name, host, username, dan password"
  else
    let trimmedName := jsTrim router.name
    if trimmedName == "" then
      Except.error "Nama router tidak boleh kosong"
    else if routerNameTaken trimmedName rs then
      Except.error "Nama router sudah digunakan"
    else
      Except.ok (rs ++ [{ router with name := trimmedName }])

/-- `removeRouter` (lines 97–114): keeps the routers whose `name` is not
strictly equal (`!==`) to the argument; if nothing was removed it throws
`Router tidak ditemukan`, otherwise it saves the filtered list. -/
def removeRouter (name : String) (rs : List Router) : Except String (List Router) :=
  let filtered := rs.filter (fun r => r.name != name)
  if filtered.length == rs.length then
    Except.error "Router tidak ditemukan"
  else
    Except.ok filtered

/-- One `addRouter` call as a state transition on the stored list: a
thrown error leaves the stored document untouched. -/
def applyAdd (rs : List Router) (router : Router) : List Router :=
  match addRouter router rs with
  | Except.ok rs2 => rs2
  | Except.error _ => rs

/-- The stored registry list after a sequence of `add` calls starting
from the empty store. -/
def addSeq (routers : List Router) : List Router := routers.foldl applyAdd []

/-- The invariant the registry maintains: every stored name is non-empty
after trimming, and no two stored names agree after trimming and
lower-casing. -/
def RegistryInv (rs : List Router) : Prop :=
  (∀ x ∈ rs, jsTrim x.name ≠ "") ∧
  rs.Pairwise (fun a b => normName a.name ≠ normName b.name)

/-! ## The persisted document as seen by `getRouters` / `getHistory`

`getRouters` (`routerStore.js` lines 17–37) and `getHistory`
(`part_003` lines 17–37) read a JSON file and branch on its state, so the
file is modelled quotiented by the parser: absent, unparsable
(`SyntaxError`), parsable but not an array, or an array.  Environmental
I/O failures that are not a state of the file's content (e.g. permission
errors, which line 35 re-throws) are outside this model. -/

inductive StoredDoc (α : Type) where
  | absent : StoredDoc α
  | malformed : StoredDoc α
  | nonArray : StoredDoc α
  | arr : List α → StoredDoc α
  deriving DecidableEq

/-- `getRouters` over the document model, returning the list handed to
the caller and the document state after the call:
* absent → `ensureStore` creates `[]`, the read returns `[]`;
* unparsable (`SyntaxError` branch, line 30) → `saveRouters([])`, return `[]`;
* not an array (line 22) → `saveRouters([])`, return `[]`;
* an array → returned as-is, file untouched. -/
def getRouters (d : StoredDoc Router) : List Router × StoredDoc Router :=
  match d with
  | StoredDoc.absent => ([], StoredDoc.arr [])
  | StoredDoc.malformed => ([], StoredDoc.arr [])
  | StoredDoc.nonArray => ([], StoredDoc.arr [])
  | StoredDoc.arr xs => (xs, StoredDoc.arr xs)

/-! ## The write sequence of `saveRouters` / `saveHistory`

`saveRouters` (`routerStore.js` lines 39–58) and `saveHistory`
(`part_003` lines 39–69) perform, in order: `ensureStore` (create the
target with `[]` if absent), write the new document to a `.tmp` sibling,
`fs.remove` the target if it exists, `fs.rename` the temp over the
target.  Each primitive is atomic; a crash may fall between any two of
them.  The state tracks the complete content of target and temp
(`none` = the path does not exist). -/

structure FsFiles (α : Type) where
  target : Option (List α)
  temp : Option (List α)
  deriving DecidableEq

inductive SaveStep (α : Type) where
  | ensureInit : SaveStep α
  | writeTemp : List α → SaveStep α
  | removeTarget : SaveStep α
  | renameTemp : SaveStep α
  deriving DecidableEq

def stepFs {α : Type} (st : FsFiles α) (s : SaveStep α) : FsFiles α :=
  match s with
  | SaveStep.ensureInit =>
    match st.target with
    | none => { st with target := some [] }
    | some _ => st
  | SaveStep.writeTemp xs => { st with temp := some xs }
  | SaveStep.removeTarget =>
    match st.target with
    | some _ => { st with target := none }
    | none => st
  | SaveStep.renameTemp =>
    match st.temp with
    | some xs => { target := some xs, temp := none }
    | none => st

/-- The primitive-operation sequence of one `saveRouters(list)` /
`saveHistory(list)` call. -/
def saveSteps {α : Type} (xs : List α) : List (SaveStep α) :=
  [SaveStep.ensureInit, SaveStep.writeTemp xs, SaveStep.removeTarget,
   SaveStep.renameTemp]

def runSteps {α : Type} (st : FsFiles α) (l : List (SaveStep α)) : FsFiles α :=
  l.foldl stepFs st

/-- The file-system state when the process crashes after the first `k`
primitive operations of a save of `xs`. -/
def crashDuringSave {α : Type} (st : FsFiles α) (xs : List α) (k : Nat) : FsFiles α :=
  runSteps st ((saveSteps xs).take k)

/-! ## Run-history store (`src/unnamed/part_003`) -/

/-- One per-device outcome inside a run record (the objects `sendBackup`
pushes onto `summary`, index.js lines 374–381 and 390–394). -/
structure RouterOutcome where
  name : String
  success : Bool
  error : Option String
  backupPath : Option String
  exportPath : Option String
  deriving DecidableEq

/-- A run record (`timestamp` kept as its string rendering; `""` models
a missing/falsy timestamp). -/
structure RunRecord where
  timestamp : String
  triggeredBySchedule : Bool
  routers : List RouterOutcome
  deriving DecidableEq

/-- `getHistory` (`part_003` lines 17–37): same self-healing read as
`getRouters`. -/
def getHistory (d : StoredDoc RunRecord) : List RunRecord × StoredDoc RunRecord :=
  match d with
  | StoredDoc.absent => ([], StoredDoc.arr [])
  | StoredDoc.malformed => ([], StoredDoc.arr [])
  | StoredDoc.nonArray => ([], StoredDoc.arr [])
  | StoredDoc.arr xs => (xs, StoredDoc.arr xs)

/-- `addBackupRecord` (`part_003` lines 71–117): validate, `unshift` the
record (most-recent-first) and truncate to the 1000 most recent. -/
def addBackupRecord (record : RunRecord) (history : List RunRecord) :
    Except String (List RunRecord) :=
  if record.timestamp == "" then
    Except.error "Backup record harus memiliki timestamp dan routers array"
  else
    Except.ok ((record :: history).take 1000)

/-- One `addBackupRecord` as a state transition on the stored history. -/
def applyRecord (history : List RunRecord) (record : RunRecord) : List RunRecord :=
  match addBackupRecord record history with
  | Except.ok h2 => h2
  | Except.error _ => history

/-- The per-router record stream `getStatistics` builds (`part_003`
lines 177–184): for each history record, the first outcome whose trimmed
name equals the trimmed query. -/
def routerRecordsOf (routerName : String) (history : List RunRecord) :
    List RouterOutcome :=
  history.filterMap
    (fun rec => rec.routers.find? (fun r => jsTrim r.name == jsTrim routerName))

/-- The consecutive-failure loop (`part_003` lines 219–227): walk the
most-recent-first stream, count failures, stop at the first success. -/
def consecLoop : List RouterOutcome → Nat
  | [] => 0
  | r :: rest => if r.success then 0 else consecLoop rest + 1

/-- The per-router statistics record (`successRate`, a floating-point
percentage string, is outside the model). -/
structure RouterStats where
  total : Nat
  success : Nat
  failed : Nat
  lastBackup : Option String
  consecutiveFailures : Nat
  deriving DecidableEq

/-- `getStatistics(routerName)` for a named router (`part_003` lines
173–236).  Note the last-successful-backup scan (line 209) compares
names with `===`, without trimming, exactly as the source does. -/
def getStatistics (routerName : String) (history : List RunRecord) : RouterStats :=
  let routerRecords := routerRecordsOf routerName history
  if routerRecords.isEmpty then
    { total := 0, success := 0, failed := 0, lastBackup := none,
      consecutiveFailures := 0 }
  else
    let total := routerRecords.length
    let success := (routerRecords.filter (fun r => r.success)).length
    let lastBackup :=
      (history.find? (fun rec =>
        match rec.routers.find? (fun r => r.name == routerName) with
        | some rr => rr.success
        | none => false)).map (fun rec => rec.timestamp)
    { total := total, success := success, failed := total - success,
      lastBackup := lastBackup, consecutiveFailures := consecLoop routerRecords }

/-! ## `execCommand` (`src/src/services/mikrotikService.js` lines 27–58)

The stream's `close` handler decides the promise: a non-zero exit code
rejects with `stderr.trim() || stdout.trim() || 'Command failed with exit
code N'`; exit code 0 resolves with `stdout.trim()`. -/

def execCommand (code : Int) (stdout stderr : String) : Except String String :=
  if code ≠ 0 then
    Except.error
      (if jsTrim stderr != "" then jsTrim stderr
       else if jsTrim stdout != "" then jsTrim stdout
       else "Command failed with exit code " ++ toString code)
  else
    Except.ok (jsTrim stdout)

/-! ## The orchestrator `sendBackup` (`src/src/index.js` lines 261–470)

External collaborators are parameters: `perf` is the remote session
client's `performBackup` (success yields the two local artifact paths,
failure the thrown error's message), `docSend` the messaging
collaborator's `sendDocument` (its failure never changes the device
outcome).  Chat traffic is collected as a list of events; HTML
formatting, network-error log suppression and the internals of the group
notification (`sendBackupNotificationToGroup`) are abstracted into the
event constructors. -/

/-- What `performBackup` resolves with (its `label`/`routerName` fields
are not consumed by `sendBackup`). -/
structure PerfResult where
  backupPath : String
  exportPath : String
  deriving DecidableEq

/-- `path.basename` (POSIX): the part after the last slash. -/
def basename (s : String) : String :=
  String.mk ((s.data.reverse.takeWhile (fun c => c != '/')).reverse)

/-- One entry of the orchestrator's `summary` accumulator.  Success
entries carry paths and file names (index.js lines 374–381), failure
entries a sanitized error (lines 390–394); the absent fields are `none`. -/
structure SummaryEntry where
  name : String
  success : Bool
  backupPath : Option String
  exportPath : Option String
  backupFileName : Option String
  exportFileName : Option String
  error : Option String
  deriving DecidableEq

/-- Chat traffic of one cycle, abstracted. -/
inductive BotMsg where
  | noRouters : BotMsg
  | routerNotFound : String → BotMsg
  | notifyStart : Nat → Bool → BotMsg
  | docSent : String → String → BotMsg
  | docFailed : String → String → BotMsg
  | backupFailed : String → String → BotMsg
  | failureAlert : String → Nat → String → BotMsg
  | summaryDone : Nat → Nat → BotMsg
  | groupNotify : BotMsg
  deriving DecidableEq

/-- The error text used when a thrown error has a falsy message:
`err.message || 'Tidak diketahui'`. -/
def errText (e : String) : String := if e == "" then "Tidak diketahui" else e

/-- The body of the per-device loop (index.js lines 299–411): run
`performBackup`; on success deliver both artifacts (each delivery failure
is reported but the outcome stays successful) and push a success entry;
on failure push a failure entry with the sanitized message. -/
def processRouter (perf : Router → Except String PerfResult)
    (docSend : String → Except String Unit) (r : Router) :
    SummaryEntry × List BotMsg :=
  match perf r with
  | Except.ok res =>
    let bn := basename res.backupPath
    let en := basename res.exportPath
    let m1 :=
      match docSend res.backupPath with
      | Except.ok _ => BotMsg.docSent r.name bn
      | Except.error e => BotMsg.docFailed r.name (sanitizeError (errText e))
    let m2 :=
      match docSend res.exportPath with
      | Except.ok _ => BotMsg.docSent r.name en
      | Except.error e => BotMsg.docFailed r.name (sanitizeError (errText e))
    ({ name := jsTrim r.name, success := true,
       backupPath := some res.backupPath, exportPath := some res.exportPath,
       backupFileName := some bn, exportFileName := some en, error := none },
     [m1, m2])
  | Except.error e =>
    ({ name := jsTrim r.name, success := false, backupPath := none,
       exportPath := none, backupFileName := none, exportFileName := none,
       error := some (sanitizeError (errText e)) },
     [BotMsg.backupFailed r.name (sanitizeError (errText e))])

/-- The whole per-device loop: the summary list plus the delivery/failure
messages, in device order. -/
def buildSummary (perf : Router → Except String PerfResult)
    (docSend : String → Except String Unit) :
    List Router → List SummaryEntry × List BotMsg
  | [] => ([], [])
  | r :: rest =>
    let p := processRouter perf docSend r
    let q := buildSummary perf docSend rest
    (p.1 :: q.1, p.2 ++ q.2)

/-- Point update of the in-memory `routerFailureCounts` map (absent keys
read as 0, as `get(...) || 0` does). -/
def updateCount (m : String → Nat) (k : String) (v : Nat) : String → Nat :=
  fun x => if x = k then v else m x

/-- One iteration of the failure-escalation loop (index.js lines
421–452): reset the counter on success; on failure increment it and, when
the post-increment count reaches the fixed threshold 3 and a default chat
is configured (`cfgChat`), emit one alert naming the device, the count
and the recorded (already sanitized) error. -/
def escalateStep (cfgChat : Bool) (counts : String → Nat) (e : SummaryEntry) :
    (String → Nat) × Option BotMsg :=
  if e.success then
    (updateCount counts e.name 0, none)
  else
    let n := counts e.name + 1
    (updateCount counts e.name n,
     if 3 ≤ n ∧ cfgChat = true then
       some (BotMsg.failureAlert e.name n (errText (e.error.getD "")))
     else none)

/-- The failure-escalation loop over the cycle's summary: the final
counter map and, per entry in order, the alert it emitted (if any). -/
def escalateRun (cfgChat : Bool) (counts : String → Nat) :
    List SummaryEntry → (String → Nat) × List (Option BotMsg)
  | [] => (counts, [])
  | e :: rest =>
    let s := escalateStep cfgChat counts e
    let q := escalateRun cfgChat s.1 rest
    (q.1, s.2 :: q.2)

/-- The in-memory `lastBackupMeta` pointer (index.js lines 415–418). -/
structure LastMeta where
  successAt : Nat
  routers : List SummaryEntry
  deriving DecidableEq

/-- The orchestrator's mutable state:
the registry document content, the in-memory failure counters, the
`lastBackupMeta` pointer, and the run-history document content. -/
structure BotState where
  routers : List Router
  failureCounts : String → Nat
  lastBackupMeta : Option LastMeta
  history : List RunRecord

/-- The tail of `sendBackup` once a non-empty target list is fixed
(index.js lines 285–470): notify start, run the per-device loop, set
`lastBackupMeta`, run the escalation loop, send the summary, send the
group notification when configured.  The run-history document is not
touched: `sendBackup` contains no call into the run-history store. -/
def sendBackupCore (perf : Router → Except String PerfResult)
    (docSend : String → Except String Unit) (cfgChat cfgGroup : Bool)
    (now : Nat) (sched : Bool) (target : List Router) (st : BotState) :
    BotState × List BotMsg :=
  let bs := buildSummary perf docSend target
  let summary := bs.1
  let meta : LastMeta := { successAt := now, routers := summary }
  let esc := escalateRun cfgChat st.failureCounts summary
  let successCount := (summary.filter (fun s => s.success)).length
  ({ routers := st.routers, failureCounts := esc.1,
     lastBackupMeta := some meta, history := st.history },
   BotMsg.notifyStart target.length sched :: bs.2 ++ esc.2.filterMap id ++
   [BotMsg.summaryDone successCount (summary.length - successCount)] ++
   (if cfgGroup then [BotMsg.groupNotify] else []))

/-- `sendBackup(chatId, triggeredBySchedule, routerName)` (index.js lines
261–470).  `hasChatId` models the `if (!chatId) return` guard; the
registry read is the state's (already healed) list; a named router is
looked up with strict equality (line 277). -/
def sendBackup (perf : Router → Except String PerfResult)
    (docSend : String → Except String Unit) (cfgChat cfgGroup : Bool)
    (now : Nat) (hasChatId : Bool) (sched : Bool) (routerName : Option String)
    (st : BotState) : BotState × List BotMsg :=
  if hasChatId = false then (st, [])
  else
    if st.routers.isEmpty then (st, [BotMsg.noRouters])
    else
      match routerName with
      | some n =>
        match st.routers.find? (fun r => r.name == n) with
        | none => (st, [BotMsg.routerNotFound n])
        | some r => sendBackupCore perf docSend cfgChat cfgGroup now sched [r] st
      | none => sendBackupCore perf docSend cfgChat cfgGroup now sched st.routers st

/-! ## Concrete inputs for counterexamples and witnesses -/

/-- A single-quote character, kept out of string literals. -/
def sq : String := String.mk [Char.ofNat 39]

def demoRouter : Router :=
  { name := "core1", host := "10.0.0.1", username := "admin",
    password := "secret", port := none }

def demoState : BotState :=
  { routers := [demoRouter], failureCounts := fun _ => 0,
    lastBackupMeta := none, history := [] }

/-- A `performBackup` collaborator that always fails with a timeout. -/
def demoPerfFail : Router → Except String PerfResult :=
  fun _ => Except.error "ConnectionError: timeout"

/-- A `performBackup` collaborator that always succeeds. -/
def demoPerfOk : Router → Except String PerfResult :=
  fun _ => Except.ok { backupPath := "/b/core1.backup", exportPath := "/e/core1.rsc" }

/-- A delivery collaborator that always succeeds. -/
def demoDocOk : String → Except String Unit := fun _ => Except.ok ()

/-- A stored router whose name differs from "core1" only in case. -/
def demoRouterUpper : Router :=
  { name := "Core1", host := "10.0.0.1", username := "admin",
    password := "secret", port := none }

/-- The outcome sequence [fail, fail, fail, success, fail] for "core1",
in time order, as run records. -/
def demoOutcome (ok : Bool) (t : String) : RunRecord :=
  { timestamp := t, triggeredBySchedule := false,
    routers := [{ name := "core1", success := ok, error := none,
                  backupPath := none, exportPath := none }] }

def demoHistory : List RunRecord :=
  [demoOutcome false "t1", demoOutcome false "t2", demoOutcome false "t3",
   demoOutcome true "t4", demoOutcome false "t5"].foldl applyRecord []

/-- The idempotence counterexample input: `password='a' b`. -/
def demoPwdInput : String := "password=" ++ sq ++ "a" ++ sq ++ " b"

/-- A failed-device summary entry, as the orchestrator records it. -/
def demoFailEntry : SummaryEntry :=
  { name := "core1", success := false, backupPath := none, exportPath := none,
    backupFileName := none, exportFileName := none,
    error := some "ConnectionError: timeout" }

/-- Four consecutive failures of the same device. -/
def demoFails4 : List SummaryEntry :=
  [demoFailEntry, demoFailEntry, demoFailEntry, demoFailEntry]

/-- Placeholder entry used as the out-of-range default of `List.getD`. -/
def defaultEntry : SummaryEntry :=
  { name := "", success := false, backupPath := none, exportPath := none,
    backupFileName := none, exportFileName := none, error := none }

/-! ## Helper lemmas on the string primitives -/

theorem data_mk (l : List Char) : (String.mk l).data = l := rfl

theorem string_ne_empty_iff {s : String} : s ≠ "" ↔ s.data ≠ [] := by
  rw [Ne, String.ext_iff]

theorem dropWhile_idem {α : Type} (p : α → Bool) (l : List α) :
    (l.dropWhile p).dropWhile p = l.dropWhile p := by
  induction l with
  | nil => rfl
  | cons a l ih =>
    by_cases h : p a = true
    · rw [List.dropWhile_cons_of_pos h]; exact ih
    · rw [List.dropWhile_cons_of_neg h, List.dropWhile_cons_of_neg h]

theorem dropWhile_head_false {α : Type} {p : α → Bool} {l : List α} {c : α}
    {t : List α} (h : l.dropWhile p = c :: t) : p c = false := by
  have hh := List.head?_dropWhile_not p l
  rw [h] at hh
  simpa using hh

theorem dropWhile_getLast? {α : Type} {p : α → Bool} {l : List α}
    (h : l.dropWhile p ≠ []) : (l.dropWhile p).getLast? = l.getLast? := by
  induction l with
  | nil => exact absurd rfl h
  | cons a t ih =>
    by_cases hp : p a = true
    · rw [List.dropWhile_cons_of_pos hp] at h ⊢
      have ht : t ≠ [] := by
        intro he; rw [he] at h; exact h rfl
      cases t with
      | nil => exact absurd rfl ht
      | cons b t2 => rw [ih h, List.getLast?_cons_cons]
    · rw [List.dropWhile_cons_of_neg hp]

theorem trim_aux (cs : List Char) :
    (((cs.dropWhile isJsSpace).reverse.dropWhile isJsSpace).reverse).dropWhile isJsSpace
      = ((cs.dropWhile isJsSpace).reverse.dropWhile isJsSpace).reverse := by
  cases hm : cs.dropWhile isJsSpace with
  | nil => rfl
  | cons c m2 =>
    have hcw : isJsSpace c = false := dropWhile_head_false hm
    cases hu : (c :: m2).reverse.dropWhile isJsSpace with
    | nil => rfl
    | cons a u2 =>
      have h1 := dropWhile_getLast? (p := isJsSpace) (l := (c :: m2).reverse)
        (by rw [hu]; exact List.cons_ne_nil a u2)
      rw [hu, List.getLast?_reverse] at h1
      have h3 : (a :: u2).reverse.head? = some c := by
        rw [List.head?_reverse, h1]
        rfl
      cases hr : (a :: u2).reverse with
      | nil => simp at hr
      | cons b t =>
        rw [hr] at h3
        have hb : b = c := by simpa using h3
        rw [List.dropWhile_cons_of_neg (by rw [hb, hcw]; simp)]

theorem trimChars_idem (cs : List Char) : trimChars (trimChars cs) = trimChars cs := by
  unfold trimChars
  rw [trim_aux cs, List.reverse_reverse, dropWhile_idem]

theorem jsTrim_idem (s : String) : jsTrim (jsTrim s) = jsTrim s :=
  congrArg String.mk (trimChars_idem s.data)

theorem jsTrim_empty : jsTrim "" = "" := rfl

theorem ne_empty_of_trim_ne_empty {s : String} (h : jsTrim s ≠ "") : s ≠ "" := by
  intro he
  exact h (by rw [he]; rfl)

theorem jsLower_ne_empty {s : String} (h : s ≠ "") : jsLower s ≠ "" := by
  rw [string_ne_empty_iff] at h ⊢
  simpa [jsLower] using h

theorem normName_trim (s : String) : normName (jsTrim s) = normName s := by
  unfold normName
  rw [jsTrim_idem]

theorem consecLoop_eq_takeWhile (l : List RouterOutcome) :
    consecLoop l = (l.takeWhile (fun r => !r.success)).length := by
  induction l with
  | nil => rfl
  | cons r rest ih =>
    by_cases h : r.success = true
    · simp [consecLoop, h, List.takeWhile_cons]
    · have h2 : r.success = false := by simpa using h
      simp [consecLoop, h2, List.takeWhile_cons, ih]

/-! ## Claim theorems -/

/-- Claim C5: reading the registry or the run history never raises: in
every document state the read returns a list, the post-state is a
well-formed array holding exactly what was returned (so an absent or
malformed document is reset to the empty list and that reset persisted),
and an array document is returned unchanged. -/
theorem storeRead_self_healing :
    (∀ d : StoredDoc Router, ∃ xs, getRouters d = (xs, StoredDoc.arr xs)) ∧
    getRouters StoredDoc.absent = ([], StoredDoc.arr []) ∧
    getRouters StoredDoc.malformed = ([], StoredDoc.arr []) ∧
    getRouters StoredDoc.nonArray = ([], StoredDoc.arr []) ∧
    (∀ xs, getRouters (StoredDoc.arr xs) = (xs, StoredDoc.arr xs)) ∧
    (∀ d : StoredDoc RunRecord, ∃ xs, getHistory d = (xs, StoredDoc.arr xs)) ∧
    getHistory StoredDoc.absent = ([], StoredDoc.arr []) ∧
    getHistory StoredDoc.malformed = ([], StoredDoc.arr []) ∧
    getHistory StoredDoc.nonArray = ([], StoredDoc.arr []) ∧
    (∀ xs, getHistory (StoredDoc.arr xs) = (xs, StoredDoc.arr xs)) := by
  refine ⟨fun d => ?_, rfl, rfl, rfl, fun xs => rfl, fun d => ?_, rfl, rfl, rfl,
    fun xs => rfl⟩
  · cases d <;> exact ⟨_, rfl⟩
  · cases d <;> exact ⟨_, rfl⟩

/-- Claim C2 (failing input): the registry file holds one device and
`saveRouters` is called with a two-device list; the code's write sequence
is write-temp, remove-target, rename.  A crash after the remove (the
third primitive, `k = 3`) leaves the target path missing — neither the
previous nor the new document — contradicting the atomicity the claim
(and the code's own comments) assert.  Before the remove (`k = 2`) the
previous document is intact, and the completed sequence (`k = 4`)
installs the new one; the run-history store's identical sequence shows
the same missing-file window. -/
theorem save_crash_window_target_missing :
    crashDuringSave { target := some [demoRouter], temp := none }
        [demoRouter, demoRouterUpper] 2 =
      { target := some [demoRouter], temp := some [demoRouter, demoRouterUpper] } ∧
    crashDuringSave { target := some [demoRouter], temp := none }
        [demoRouter, demoRouterUpper] 3 =
      { target := none, temp := some [demoRouter, demoRouterUpper] } ∧
    crashDuringSave { target := some [demoRouter], temp := none }
        [demoRouter, demoRouterUpper] 4 =
      { target := some [demoRouter, demoRouterUpper], temp := none } ∧
    crashDuringSave { target := some [demoOutcome true "t1"], temp := none }
        ([] : List RunRecord) 3 =
      { target := none, temp := some [] } := by
  refine ⟨rfl, rfl, rfl, rfl⟩

/-- Claim C4 (counterexample): the store holds a device named `Core1`;
`remove("core1")` matches under the claim's trimmed case-insensitive
comparison (the normal forms agree), yet `removeRouter` fails with
`Router tidak ditemukan` because the code compares names with strict
equality. -/
theorem removeRouter_case_insensitive_cex :
    normName demoRouterUpper.name = normName "core1" ∧
    removeRouter "core1" [demoRouterUpper] = Except.error "Router tidak ditemukan" := by
  exact ⟨by decide, rfl⟩

/-- Claim C4 (amended): `removeRouter` matches the argument against
stored names by strict string equality — no trimming, no case folding —
removing every exact match; when no stored name is strictly equal it
fails with `Router tidak ditemukan` and the stored list is unchanged. -/
theorem removeRouter_exact_match (name : String) (rs : List Router) :
    ((∀ r ∈ rs, r.name ≠ name) →
      removeRouter name rs = Except.error "Router tidak ditemukan") ∧
    (∀ r ∈ rs, r.name = name →
      removeRouter name rs = Except.ok (rs.filter (fun x => x.name != name))) := by
  constructor
  · intro h
    have hfix : rs.filter (fun x => x.name != name) = rs := by
      rw [List.filter_eq_self]
      intro a ha
      simpa using h a ha
    simp only [removeRouter, hfix]
    simp
  · intro r hr hname
    have hlt : (rs.filter (fun x => x.name != name)).length < rs.length := by
      rw [List.length_filter_lt_length_iff_exists]
      exact ⟨r, hr, by simp [hname]⟩
    have hbeq : ((rs.filter (fun x => x.name != name)).length == rs.length) = false := by
      rw [beq_eq_false_iff_ne]
      omega
    simp only [removeRouter, hbeq]
    simp

/-- Claim C4 (witness for the amended theorem): removing `core1` from a
store holding exactly a device of that exact name succeeds and leaves the
empty list. -/
theorem removeRouter_exact_match_witness :
    removeRouter "core1" [demoRouter] = Except.ok [] := by
  have h := (removeRouter_exact_match "core1" [demoRouter]).2 demoRouter
    (by decide) (by decide)
  simpa using h

/-- Claim C7: a non-zero exit status makes `execCommand` fail even when
standard error is empty, with the error detail in preference order
trimmed stderr, else trimmed stdout, else the generic exit-code message;
a zero exit status succeeds with the trimmed stdout. -/
theorem execCommand_spec :
    (∀ (code : Int) (so se : String), code ≠ 0 → jsTrim se ≠ "" →
      execCommand code so se = Except.error (jsTrim se)) ∧
    (∀ (code : Int) (so se : String), code ≠ 0 → jsTrim se = "" → jsTrim so ≠ "" →
      execCommand code so se = Except.error (jsTrim so)) ∧
    (∀ (code : Int) (so se : String), code ≠ 0 → jsTrim se = "" → jsTrim so = "" →
      execCommand code so se =
        Except.error ("Command failed with exit code " ++ toString code)) ∧
    (∀ so se : String, execCommand 0 so se = Except.ok (jsTrim so)) := by
  refine ⟨fun code so se hc hse => ?_, fun code so se hc hse hso => ?_,
    fun code so se hc hse hso => ?_, fun so se => ?_⟩
  · unfold execCommand
    rw [if_pos hc, if_pos (by simpa [bne_iff_ne] using hse)]
  · unfold execCommand
    rw [if_pos hc, if_neg (by simp [hse]), if_pos (by simpa [bne_iff_ne] using hso)]
  · unfold execCommand
    rw [if_pos hc, if_neg (by simp [hse]), if_neg (by simp [hso])]
  · unfold execCommand
    rw [if_neg (by simp)]

/-- Claim C7 (witness): exit code 1 with empty stderr and stdout ` out `
fails with the trimmed stdout `out`. -/
theorem execCommand_spec_witness :
    execCommand 1 " out " "" = Except.error "out" := by
  have h := (execCommand_spec).2.1 1 " out " "" (by decide) (by decide) (by decide)
  simpa using h

/-- Claim C9: the consecutive-failure statistic walks the device's
most-recent-first outcome stream and counts failures up to the first
success (it equals the length of the longest failure-only prefix), and on
the concrete outcome sequence fail, fail, fail, success, fail recorded
across five cycles through `addBackupRecord` it reports 1. -/
theorem consecutive_failures_spec :
    (∀ (name : String) (history : List RunRecord),
      (getStatistics name history).consecutiveFailures =
        ((routerRecordsOf name history).takeWhile (fun r => !r.success)).length) ∧
    (getStatistics "core1" demoHistory).consecutiveFailures = 1 := by
  constructor
  · intro name history
    unfold getStatistics
    by_cases h : (routerRecordsOf name history).isEmpty = true
    · rw [if_pos h]
      rw [List.isEmpty_iff] at h
      rw [h]
      rfl
    · rw [if_neg h]
      exact consecLoop_eq_takeWhile _
  · decide

/-- Claim C10: `safeName` returns the fallback `router` for a missing or
empty argument; on a non-empty argument it returns the argument with each
character outside `[A-Za-z0-9_-]` replaced by `_` (the fallback never
fires because the replacement preserves length); consequently `safeName`
never returns the empty string and `performBackup`'s safe device name is
always non-empty. -/
theorem safeName_spec :
    safeName none = "router" ∧
    safeName (some "") = "router" ∧
    (∀ s : String, s ≠ "" → safeName (some s) = safeReplace s) ∧
    (∀ arg : Option String, safeName arg ≠ "") ∧
    (∀ nm host : String, perfRouterName nm host ≠ "") := by
  have hrep : ∀ s : String, s ≠ "" → (safeReplace s == "") = false := by
    intro s hs
    rw [beq_eq_false_iff_ne]
    rw [string_ne_empty_iff] at hs ⊢
    simpa [safeReplace] using hs
  have hne : ∀ arg : Option String, safeName arg ≠ "" := by
    intro arg
    cases arg with
    | none => decide
    | some s =>
      simp only [safeName, Option.getD_some]
      by_cases h : (safeReplace s == "") = true
      · rw [if_pos h]; decide
      · rw [if_neg h]
        simp only [Bool.not_eq_true] at h
        exact (beq_eq_false_iff_ne).mp h
  refine ⟨by decide, by decide, fun s hs => ?_, hne, fun nm host => hne _⟩
  · have h := hrep s hs
    simp only [safeName, Option.getD_some]
    rw [h]
    simp

/-- Claim C10 (witness): on a name with unsafe characters, `safeName`
applies the character replacement. -/
theorem safeName_spec_witness :
    safeName (some "core 1.a") = safeReplace "core 1.a" :=
  (safeName_spec).2.2.1 "core 1.a" (by decide)

theorem buildSummary_length (perf : Router → Except String PerfResult)
    (docSend : String → Except String Unit) (rs : List Router) :
    (buildSummary perf docSend rs).1.length = rs.length := by
  induction rs with
  | nil => rfl
  | cons r rest ih => simp [buildSummary, ih]

/-- Claim C1 (counterexample): one registered device, `performBackup`
mocked to fail with a timeout; the cycle runs on a non-empty target set
and updates `lastBackupMeta`, but the run-history document is left empty:
no RunRecord is persisted (`sendBackup` never calls into the run-history
store), so the history length is 0, not the 1 the claim requires. -/
theorem sendBackup_no_runrecord_cex :
    demoState.routers.length = 1 ∧
    demoState.history.length = 0 ∧
    (sendBackup demoPerfFail demoDocOk true true 0 true false none
      demoState).1.lastBackupMeta.isSome = true ∧
    (sendBackup demoPerfFail demoDocOk true true 0 true false none
      demoState).1.history.length = 0 ∧
    decide ((sendBackup demoPerfFail demoDocOk true true 0 true false none
      demoState).1.history.length = demoState.history.length + 1) = false := by
  exact ⟨rfl, rfl, rfl, rfl, by decide⟩

/-- Claim C1 (amended): for every cycle whose target set is non-empty
(the whole registry, or a named and found device), after all devices are
processed the orchestrator builds one summary with exactly one entry per
target device and stores it in the in-memory `lastBackupMeta` pointer
with the cycle timestamp — but it persists nothing to the run-history
store: the history document after the cycle is exactly the history
before it. -/
theorem sendBackup_summary_meta_no_persist
    (perf : Router → Except String PerfResult)
    (docSend : String → Except String Unit) (cfgChat cfgGroup : Bool)
    (now : Nat) (sched : Bool) (st : BotState) :
    (st.routers ≠ [] →
      (sendBackup perf docSend cfgChat cfgGroup now true sched none st).1.history
          = st.history ∧
      (sendBackup perf docSend cfgChat cfgGroup now true sched none st).1.lastBackupMeta
          = some { successAt := now, routers := (buildSummary perf docSend st.routers).1 } ∧
      (buildSummary perf docSend st.routers).1.length = st.routers.length) ∧
    (∀ (n : String) (r : Router), st.routers.find? (fun x => x.name == n) = some r →
      (sendBackup perf docSend cfgChat cfgGroup now true sched (some n) st).1.history
          = st.history ∧
      (sendBackup perf docSend cfgChat cfgGroup now true sched (some n) st).1.lastBackupMeta
          = some { successAt := now, routers := (buildSummary perf docSend [r]).1 } ∧
      (buildSummary perf docSend [r]).1.length = 1) := by
  constructor
  · intro hne
    have hemp : ¬(st.routers.isEmpty = true) := by
      simpa [List.isEmpty_iff] using hne
    have hred : sendBackup perf docSend cfgChat cfgGroup now true sched none st
        = sendBackupCore perf docSend cfgChat cfgGroup now sched st.routers st := by
      unfold sendBackup
      rw [if_neg (by simp), if_neg hemp]
    rw [hred]
    exact ⟨rfl, rfl, buildSummary_length perf docSend st.routers⟩
  · intro n r hfind
    have hne : st.routers ≠ [] := by
      intro he
      rw [he] at hfind
      exact absurd hfind (by simp)
    have hemp : ¬(st.routers.isEmpty = true) := by
      simpa [List.isEmpty_iff] using hne
    have hred : sendBackup perf docSend cfgChat cfgGroup now true sched (some n) st
        = sendBackupCore perf docSend cfgChat cfgGroup now sched [r] st := by
      unfold sendBackup
      rw [if_neg (by simp), if_neg hemp]
      simp only [hfind]
    rw [hred]
    exact ⟨rfl, rfl, buildSummary_length perf docSend [r]⟩

/-- Claim C1 (witness for the amended theorem): running a cycle over the
one-device demo registry leaves the history untouched and the summary has
one entry. -/
theorem sendBackup_summary_meta_no_persist_witness :
    (sendBackup demoPerfOk demoDocOk true true 0 true false none demoState).1.history
        = demoState.history ∧
    (buildSummary demoPerfOk demoDocOk demoState.routers).1.length
        = demoState.routers.length := by
  have h := (sendBackup_summary_meta_no_persist demoPerfOk demoDocOk true true 0
    false demoState).1 (by decide)
  exact ⟨h.1, h.2.2⟩

/-- Claim C3: with a default alert chat configured, the escalation loop
processes the cycle's outcome list entry by entry: a success resets the
device's failure counter to 0 and emits no alert; a failure increments it
by exactly 1, and the alert for that entry is emitted if and only if the
post-increment counter is at least the threshold 3 — so the alert
re-fires on every consecutive failure from the third on, not only once. -/
theorem escalation_alert_iff (cfgChat : Bool) (counts : String → Nat)
    (es : List SummaryEntry) (i : Nat) (hcfg : cfgChat = true)
    (hi : i < es.length) :
    (((escalateRun cfgChat counts es).2.getD i none).isSome = true ↔
      ((es.getD i defaultEntry).success = false ∧
        3 ≤ (escalateRun cfgChat counts (es.take i)).1 (es.getD i defaultEntry).name + 1)) ∧
    ((es.getD i defaultEntry).success = true →
      (escalateRun cfgChat counts (es.take (i + 1))).1 (es.getD i defaultEntry).name = 0) ∧
    ((es.getD i defaultEntry).success = false →
      (escalateRun cfgChat counts (es.take (i + 1))).1 (es.getD i defaultEntry).name =
        (escalateRun cfgChat counts (es.take i)).1 (es.getD i defaultEntry).name + 1) := by
  subst hcfg
  revert hi
  induction es generalizing counts i with
  | nil =>
    intro hi
    exact absurd hi (by simp)
  | cons e rest ih =>
    intro hi
    cases i with
    | zero =>
      by_cases hs : e.success = true
      · refine ⟨?_, ?_, ?_⟩
        · simp [escalateRun, escalateStep, hs]
        · intro _
          simp [escalateRun, escalateStep, hs, updateCount, List.take_succ_cons]
        · intro hcontra
          simp only [List.getD_cons_zero] at hcontra
          rw [hs] at hcontra
          exact absurd hcontra (by simp)
      · have hs2 : e.success = false := by simpa using hs
        by_cases hn : 3 ≤ counts e.name + 1
        · refine ⟨?_, ?_, ?_⟩
          · simp [escalateRun, escalateStep, hs2, hn]
          · intro hcontra
            simp only [List.getD_cons_zero] at hcontra
            rw [hs2] at hcontra
            exact absurd hcontra (by simp)
          · intro _
            simp [escalateRun, escalateStep, hs2, updateCount, List.take_succ_cons]
        · refine ⟨?_, ?_, ?_⟩
          · simp [escalateRun, escalateStep, hs2, hn]
          · intro hcontra
            simp only [List.getD_cons_zero] at hcontra
            rw [hs2] at hcontra
            exact absurd hcontra (by simp)
          · intro _
            simp [escalateRun, escalateStep, hs2, updateCount, List.take_succ_cons]
    | succ k =>
      have hk : k < rest.length := by simpa using Nat.lt_of_succ_lt_succ hi
      have h := ih ((escalateStep true counts e).1) k hk
      simpa [escalateRun, List.take_succ_cons, List.getD_cons_succ] using h

/-- Claim C3 (witness): with four consecutive failures of one device and
counters starting at zero, the alert for the fourth entry is also emitted
(the counter is 4 ≥ 3), demonstrating the re-fire behaviour past the
threshold. -/
theorem escalation_alert_iff_witness :
    ((escalateRun true (fun _ => 0) demoFails4).2.getD 3 none).isSome = true := by
  have h := (escalation_alert_iff true (fun _ => 0) demoFails4 3 rfl (by decide)).1
  exact h.mpr (by decide)

theorem registryInv_applyAdd (rs : List Router) (router : Router)
    (h : RegistryInv rs) : RegistryInv (applyAdd rs router) := by
  unfold applyAdd
  cases ha : addRouter router rs with
  | error e => exact h
  | ok rs2 =>
    unfold addRouter at ha
    by_cases h1 : (router.name == "" || router.host == "" || router.username == ""
        || router.password == "") = true
    · rw [if_pos h1] at ha; exact absurd ha (by simp)
    · rw [if_neg h1] at ha
      by_cases h2 : (jsTrim router.name == "") = true
      · rw [if_pos h2] at ha; exact absurd ha (by simp)
      · rw [if_neg h2] at ha
        by_cases h3 : routerNameTaken (jsTrim router.name) rs = true
        · rw [if_pos h3] at ha; exact absurd ha (by simp)
        · rw [if_neg h3] at ha
          have h4 : rs ++ [{ router with name := jsTrim router.name }] = rs2 :=
            Except.ok.inj ha
          rw [← h4]
          constructor
          · intro y hy
            rcases List.mem_append.mp hy with hyl | hyr
            · exact h.1 y hyl
            · rw [List.mem_singleton] at hyr
              subst hyr
              show jsTrim (jsTrim router.name) ≠ ""
              rw [jsTrim_idem]
              exact (beq_eq_false_iff_ne).mp (by simpa using h2)
          · rw [List.pairwise_append]
            refine ⟨h.2, List.pairwise_singleton _ _, ?_⟩
            intro a ha2 b hb
            rw [List.mem_singleton] at hb
            subst hb
            show normName a.name ≠ normName (jsTrim router.name)
            rw [normName_trim]
            have h3f : routerNameTaken (jsTrim router.name) rs = false := by
              simpa using h3
            unfold routerNameTaken at h3f
            rw [List.any_eq_false] at h3f
            have hfa := h3f a ha2
            intro heq
            apply hfa
            have hane : a.name ≠ "" := ne_empty_of_trim_ne_empty (h.1 a ha2)
            have hjl : jsLower (jsTrim router.name) = normName router.name := rfl
            simp [bne_iff_ne, hane, hjl, heq]

theorem registryInv_foldl (cands : List Router) :
    ∀ rs : List Router, RegistryInv rs → RegistryInv (cands.foldl applyAdd rs) := by
  induction cands with
  | nil => intro rs h; exact h
  | cons c rest ih =>
    intro rs h
    rw [List.foldl_cons]
    exact ih _ (registryInv_applyAdd rs c h)

/-- Claim C6: after any sequence of `add` calls starting from the empty
registry, every stored name is non-empty after trimming and no two stored
devices have names that agree after trimming and lower-casing; and an
`add` whose otherwise-valid candidate's trimmed lower-cased name equals a
stored device's fails with the duplicate-name error, leaving the stored
list exactly unchanged. -/
theorem registry_unique_names :
    (∀ routers : List Router, RegistryInv (addSeq routers)) ∧
    (∀ (router x : Router) (rs : List Router), x ∈ rs → jsTrim x.name ≠ "" →
      normName x.name = normName router.name →
      router.name ≠ "" → router.host ≠ "" → router.username ≠ "" →
      router.password ≠ "" →
      addRouter router rs = Except.error "Nama router sudah digunakan" ∧
        applyAdd rs router = rs) := by
  constructor
  · intro routers
    unfold addSeq
    exact registryInv_foldl routers [] ⟨by simp, List.Pairwise.nil⟩
  · intro router x rs hx hxt hnorm hn hh hu hp
    have e1 : (router.name == "") = false := beq_eq_false_iff_ne.mpr hn
    have e2 : (router.host == "") = false := beq_eq_false_iff_ne.mpr hh
    have e3 : (router.username == "") = false := beq_eq_false_iff_ne.mpr hu
    have e4 : (router.password == "") = false := beq_eq_false_iff_ne.mpr hp
    have htrim : jsTrim router.name ≠ "" := by
      have hno : normName x.name ≠ "" := jsLower_ne_empty hxt
      rw [hnorm] at hno
      intro he
      apply hno
      unfold normName
      rw [he]
      rfl
    have htb : (jsTrim router.name == "") = false := beq_eq_false_iff_ne.mpr htrim
    have hxne : x.name ≠ "" := ne_empty_of_trim_ne_empty hxt
    have hnorm2 : jsLower (jsTrim x.name) = jsLower (jsTrim router.name) := hnorm
    have htaken : routerNameTaken (jsTrim router.name) rs = true := by
      unfold routerNameTaken
      rw [List.any_eq_true]
      refine ⟨x, hx, ?_⟩
      simp [bne_iff_ne, hxne]
      exact hnorm2
    have herr : addRouter router rs = Except.error "Nama router sudah digunakan" := by
      unfold addRouter
      simp only [e1, e2, e3, e4, htb, htaken, Bool.or_false]
      simp
    refine ⟨herr, ?_⟩
    unfold applyAdd
    rw [herr]

/-- Claim C6 (witness): adding a device named `core1` while `Core1` is
stored fails with the duplicate-name error and changes nothing. -/
theorem registry_unique_names_witness :
    addRouter demoRouter [demoRouterUpper] =
        Except.error "Nama router sudah digunakan" ∧
      applyAdd [demoRouterUpper] demoRouter = [demoRouterUpper] :=
  (registry_unique_names).2 demoRouter demoRouterUpper [demoRouterUpper]
    (by simp) (by decide) (by decide) (by decide) (by decide) (by decide)
    (by decide)

/-! ## Lemmas on the sanitizer scanner -/

theorem sanitizeFuel_nil (f : Nat) : sanitizeFuel f [] = [] := by
  cases f <;> rfl

theorem pwdMatchLen_ge {cs : List Char} {n : Nat}
    (h : pwdMatchLen cs = some n) : 9 ≤ n := by
  unfold pwdMatchLen at h
  split at h
  · simp only [Option.some.injEq] at h
    omega
  · exact absurd h (by simp)

theorem pwdMatchLen_none_iff {cs : List Char} :
    pwdMatchLen cs = none ↔ canStart cs = false := by
  unfold pwdMatchLen
  split <;> simp_all

theorem sanitizeFuel_congr (f1 : Nat) :
    ∀ (cs : List Char) (f2 : Nat), cs.length ≤ f1 → cs.length ≤ f2 →
      sanitizeFuel f1 cs = sanitizeFuel f2 cs := by
  induction f1 with
  | zero =>
    intro cs f2 h1 _
    have hnil : cs = [] := by
      cases cs with
      | nil => rfl
      | cons a l => simp at h1
    rw [hnil, sanitizeFuel_nil, sanitizeFuel_nil]
  | succ k ih =>
    intro cs f2 h1 h2
    cases cs with
    | nil => rw [sanitizeFuel_nil, sanitizeFuel_nil]
    | cons c rest =>
      cases f2 with
      | zero => simp at h2
      | succ j =>
        unfold sanitizeFuel
        cases hm : pwdMatchLen (c :: rest) with
        | some n =>
          simp only [hm]
          have h9 := pwdMatchLen_ge hm
          have hd : ((c :: rest).drop n).length ≤ k := by
            rw [List.length_drop]
            simp only [List.length_cons]
            simp only [List.length_cons] at h1
            omega
          have hd2 : ((c :: rest).drop n).length ≤ j := by
            rw [List.length_drop]
            simp only [List.length_cons]
            simp only [List.length_cons] at h2
            omega
          rw [ih _ j hd hd2]
        | none =>
          simp only [hm]
          have ht1 : rest.length ≤ k := by
            simp only [List.length_cons] at h1
            omega
          have ht2 : rest.length ≤ j := by
            simp only [List.length_cons] at h2
            omega
          rw [ih rest j ht1 ht2]

theorem sanitizeChars_cons_some {c : Char} {rest : List Char} {n : Nat}
    (h : pwdMatchLen (c :: rest) = some n) :
    sanitizeChars (c :: rest) = pwdMask ++ sanitizeChars ((c :: rest).drop n) := by
  have h9 := pwdMatchLen_ge h
  have hd : ((c :: rest).drop n).length ≤ rest.length := by
    rw [List.length_drop]
    simp only [List.length_cons]
    omega
  unfold sanitizeChars
  simp only [List.length_cons]
  simp only [sanitizeFuel]
  simp only [h]
  congr 1
  exact sanitizeFuel_congr rest.length _ _ hd (le_refl _)

theorem sanitizeChars_cons_none {c : Char} {rest : List Char}
    (h : pwdMatchLen (c :: rest) = none) :
    sanitizeChars (c :: rest) = c :: sanitizeChars rest := by
  unfold sanitizeChars
  simp only [List.length_cons]
  simp only [sanitizeFuel]
  simp only [h]

theorem sanitizeChars_nil : sanitizeChars [] = [] := rfl

theorem canStart_length {cs : List Char} (h : canStart cs = true) :
    8 < cs.length := by
  unfold canStart at h
  rw [Bool.and_eq_true] at h
  cases hg : cs.get? 8 with
  | none => rw [hg] at h; exact absurd h.2 (by simp [isSepOpt])
  | some a => exact (List.get?_eq_some.mp hg).1

theorem optQuote_noquote {l : List Char} (hq : ∀ c ∈ l, isQuote c = false) :
    optQuote l = (0, l) := by
  cases l with
  | nil => rfl
  | cons c t =>
    show (if isQuote c = true then ((1 : Nat), t) else (0, c :: t)) = (0, c :: t)
    rw [hq c (by simp)]
    simp

theorem nonQuoteLen_noquote {l : List Char} (hq : ∀ c ∈ l, isQuote c = false) :
    nonQuoteLen l = l.length := by
  unfold nonQuoteLen
  rw [List.takeWhile_eq_self_iff.mpr (fun x hx => by simp [hq x hx])]

theorem pwdMatchLen_noquote_full {cs : List Char} {n : Nat}
    (hq : ∀ c ∈ cs, isQuote c = false) (h : pwdMatchLen cs = some n) :
    n = cs.length := by
  have hc : canStart cs = true := by
    by_cases hb : canStart cs = true
    · exact hb
    · have : pwdMatchLen cs = none :=
        pwdMatchLen_none_iff.mpr (by simpa using hb)
      rw [this] at h
      exact absurd h (by simp)
  have hlen := canStart_length hc
  have hq9 : ∀ c ∈ (cs.drop 9).drop (wsLen (cs.drop 9)), isQuote c = false :=
    fun c hc2 => hq c (List.mem_of_mem_drop (List.mem_of_mem_drop hc2))
  unfold pwdMatchLen at h
  rw [if_pos hc] at h
  simp only [optQuote_noquote hq9, nonQuoteLen_noquote hq9, List.drop_length,
    tailQuote, Option.some.injEq] at h
  have hws : wsLen (cs.drop 9) ≤ (cs.drop 9).length :=
    (List.takeWhile_sublist _).length_le
  rw [List.length_drop] at h hws
  rw [List.length_drop] at h
  omega

theorem sanitizeChars_mask : sanitizeChars pwdMask = pwdMask := by decide

theorem canStart_cons (c : Char) (l : List Char) :
    canStart (c :: l) =
      (((c :: l.take 7).map lowerChar == pwdChars) && isSepOpt (l.get? 7)) := rfl

theorem sanitize_window (rest : List Char) :
    ∀ j : Nat, (∀ c ∈ rest, isQuote c = false) → j < 8 →
      (sanitizeChars rest).take (j + 1) = rest.take (j + 1) ∨
      isSepOpt ((sanitizeChars rest).get? j) = false := by
  induction rest with
  | nil =>
    intro j _ _
    left
    rfl
  | cons d t ih =>
    intro j hq hj
    cases hm : pwdMatchLen (d :: t) with
    | some n =>
      have hn := pwdMatchLen_noquote_full hq hm
      have hσ : sanitizeChars (d :: t) = pwdMask := by
        rw [sanitizeChars_cons_some hm, hn, List.drop_length, sanitizeChars_nil,
          List.append_nil]
      right
      rw [hσ]
      interval_cases j <;> decide
    | none =>
      rw [sanitizeChars_cons_none hm]
      cases j with
      | zero =>
        left
        rfl
      | succ k =>
        have hqt : ∀ c ∈ t, isQuote c = false :=
          fun c hc => hq c (List.mem_cons_of_mem d hc)
        have hk : k < 8 := Nat.lt_of_succ_lt hj
        rcases ih k hqt hk with hL | hR
        · left
          rw [List.take_succ_cons, List.take_succ_cons, hL]
        · right
          rw [List.get?_cons_succ]
          exact hR

theorem canStart_sanitize (c : Char) (rest : List Char)
    (hq : ∀ x ∈ rest, isQuote x = false) (h : canStart (c :: rest) = false) :
    canStart (c :: sanitizeChars rest) = false := by
  rcases sanitize_window rest 7 hq (by omega) with hL | hR
  · have h1 : (sanitizeChars rest).take 7 = rest.take 7 := by
      have h2 := congrArg (List.take 7) hL
      rw [List.take_take, List.take_take] at h2
      norm_num at h2
      exact h2
    have h2 : (sanitizeChars rest).get? 7 = rest.get? 7 := by
      have e1 := List.get?_take (l := sanitizeChars rest) (n := 8) (m := 7)
        (by omega)
      have e2 := List.get?_take (l := rest) (n := 8) (m := 7) (by omega)
      rw [← e1, hL, e2]
    rw [canStart_cons] at h ⊢
    rw [h1, h2]
    exact h
  · rw [canStart_cons, hR, Bool.and_false]

theorem sanitize_idem_noquote (cs : List Char)
    (hq : ∀ c ∈ cs, isQuote c = false) :
    sanitizeChars (sanitizeChars cs) = sanitizeChars cs := by
  induction cs with
  | nil => rfl
  | cons c rest ih =>
    cases hm : pwdMatchLen (c :: rest) with
    | some n =>
      have hn := pwdMatchLen_noquote_full hq hm
      have hσ : sanitizeChars (c :: rest) = pwdMask := by
        rw [sanitizeChars_cons_some hm, hn, List.drop_length, sanitizeChars_nil,
          List.append_nil]
      rw [hσ, sanitizeChars_mask]
    | none =>
      have hqt : ∀ x ∈ rest, isQuote x = false :=
        fun x hx => hq x (List.mem_cons_of_mem c hx)
      have hcs : canStart (c :: rest) = false := pwdMatchLen_none_iff.mp hm
      have hm2 : pwdMatchLen (c :: sanitizeChars rest) = none :=
        pwdMatchLen_none_iff.mpr (canStart_sanitize c rest hqt hcs)
      rw [sanitizeChars_cons_none hm, sanitizeChars_cons_none hm2, ih hqt]

/-- Claim C8 (counterexample): on the input `password='a' b` the
sanitizer yields `password=*** b`, but a second application collapses it
further to `password=***` (after the first pass the quoted credential's
delimiters are gone, so the greedy `[^'\x22]*` swallows the trailing
text): the sanitizer is not idempotent. -/
theorem sanitizeError_not_idempotent_cex :
    sanitizeError demoPwdInput = "password=*** b" ∧
    sanitizeError (sanitizeError demoPwdInput) = "password=***" ∧
    decide (sanitizeError (sanitizeError demoPwdInput) =
      sanitizeError demoPwdInput) = false := by
  exact ⟨by decide, by decide, by decide⟩

/-- Claim C8 (amended): a single application of the sanitizer replaces
every leftmost match of the `password[=:]` pattern by the fixed
placeholder `password=***`; on inputs containing no quote characters the
sanitizer is idempotent, but it is not idempotent in general — a quoted
credential followed by further text is collapsed again by a second pass
(see the counterexample). -/
theorem sanitizeError_idem_quote_free (s : String)
    (h : ∀ c ∈ s.data, isQuote c = false) :
    sanitizeError (sanitizeError s) = sanitizeError s := by
  unfold sanitizeError
  exact congrArg String.mk (sanitize_idem_noquote s.data h)

/-- Claim C8 (witness for the amended theorem): on the quote-free input
`user password=abc x` a second sanitization changes nothing. -/
theorem sanitizeError_idem_quote_free_witness :
    sanitizeError (sanitizeError "user password=abc x") =
      sanitizeError "user password=abc x" :=
  sanitizeError_idem_quote_free "user password=abc x" (by decide)

end MikrotikBot
